import Mathlib

/-!
Verification of the gingrwrapp client library (src/gingrwrapp/client.py and
src/gingrwrapp/response_objects.py) against its natural-language specification.

The Python code is shallowly embedded: pure functions become Lean functions,
the HTTP world is an explicit oracle mapping attempt indices (and session
validity) to outcomes, machine-level details (UTF-8 byte decoding, the zip
container format, pickle's byte format) are abstracted to structured values,
and every fallible operation returns `Except`.  All definitions are
executable and structurally recursive so concrete runs evaluate by `decide`.
-/

namespace Gingr

/-- Python `str` is modelled by Lean `String`; all operations used by the code
(`in`, `split`, `replace`, `strip`) are re-implemented below on `List Char`
with Python semantics, structurally recursive so they kernel-reduce. -/
def listIsInfix (needle : List Char) : List Char → Bool
  | [] => needle.isEmpty
  | c :: rest => needle.isPrefixOf (c :: rest) || listIsInfix needle rest

/-- Python `needle in hay` on strings. -/
def pyIn (needle hay : String) : Bool :=
  listIsInfix needle.data hay.data

/-- Splitter core for Python `str.split(sep)` with non-empty `sep`
(head `c0`, tail `sepRest`).  `fuel` bounds the recursion; it is set to the
length of the input, which every step strictly decreases. -/
def pySplitAux (c0 : Char) (sepRest : List Char) :
    Nat → List Char → List Char → List (List Char)
  | _, acc, [] => [acc.reverse]
  | 0, acc, l => [acc.reverse ++ l]
  | fuel + 1, acc, c :: rest =>
    if c = c0 ∧ sepRest.isPrefixOf rest then
      acc.reverse :: pySplitAux c0 sepRest fuel [] (rest.drop sepRest.length)
    else
      pySplitAux c0 sepRest fuel (c :: acc) rest

/-- Dispatch of `pySplit` on the separator's character list.  An empty
separator is a `ValueError` in Python; it is mapped to the whole string. -/
def pySplitGo : List Char → String → List String
  | [], s => [s]
  | c :: rest, s => (pySplitAux c rest s.data.length [] s.data).map String.mk

/-- Python `s.split(sep)`: cut `s` at every non-overlapping occurrence of
`sep`, scanning left to right. -/
def pySplit (s sep : String) : List String :=
  pySplitGo sep.data s

/-- Python single-character whitespace test used by `str.strip()`. -/
def pyIsSpace (c : Char) : Bool :=
  c = ' ' || c = '\t' || c = '\n' || c = '\r' || c = Char.ofNat 11 || c = Char.ofNat 12

/-- Strip characters satisfying `p` from both ends of a list. -/
def stripWhere (p : Char → Bool) (l : List Char) : List Char :=
  ((l.dropWhile p).reverse.dropWhile p).reverse

/-- Python `s.strip()`. -/
def pyStrip (s : String) : String :=
  String.mk (stripWhere pyIsSpace s.data)

/-- Python `s.strip(";")`: removes `;` from BOTH ends of the string. -/
def pyStripSemi (s : String) : String :=
  String.mk (stripWhere (fun c => c = ';') s.data)

/-- Errors raised by the embedded code.  `gingr msg` is
`GingrClientError(msg)`; `badZip` stands for `zipfile.BadZipFile`. -/
inductive PyError where
  | gingr (msg : String)
  | badZip
  deriving DecidableEq, Repr

/-- Client configuration: the constructor arguments of `Client.__init__` that
the verified code paths read. -/
structure Cfg where
  subdomain : String
  deriving DecidableEq, Repr

/-- `Client.base_url`: `f"https://{subdomain}.gingrapp.com"`. -/
def Cfg.base_url (c : Cfg) : String :=
  "https://" ++ c.subdomain ++ ".gingrapp.com"

/-- `Client.auth_url` property: `f"{self.base_url}/auth/login"`. -/
def Cfg.auth_url (c : Cfg) : String :=
  c.base_url ++ "/auth/login"

/-- Python JSON values as produced by `resp.json()`.  Numbers are modelled as
integers; only truthiness of a number is ever consulted. -/
inductive Json where
  | null
  | b (v : Bool)
  | i (v : Int)
  | s (v : String)
  | arr (xs : List Json)
  | obj (fields : List (String × Json))
  deriving Repr

/-- Python truthiness of a JSON value (`bool(x)`). -/
def pyTruthy : Json → Bool
  | .null => false
  | .b v => v
  | .i v => v != 0
  | .s v => !v.data.isEmpty
  | .arr xs => !xs.isEmpty
  | .obj fs => !fs.isEmpty

/-- Python `dict.get(key, default)` on a JSON object's field list. -/
def dictGet (fields : List (String × Json)) (key : String) (dflt : Json) : Json :=
  match fields.find? (fun kv => kv.1 == key) with
  | some kv => kv.2
  | none => dflt

/-- `requests.Response.content` bytes, abstracted: either a well-formed zip
archive whose members are (name, UTF-8 decoded text) pairs, or plain
(non-zip) bytes carrying their decoded text.  `zipfile.is_zipfile` is true
exactly on the first constructor. -/
inductive PyBytes where
  | zip (members : List (String × String))
  | raw (text : String)
  deriving Repr

/-- `zipfile.is_zipfile(io.BytesIO(content))`. -/
def isZipfile : PyBytes → Bool
  | .zip _ => true
  | .raw _ => false

/-- A `requests.Response`.  `location` is the `location` header (absent is
`none`); `contentType` is the `content-type` header; `text` is `resp.text`;
`json` is the object returned by `resp.json()` (consulted only on the JSON
branch); `content` is `resp.content`. -/
structure Response where
  status : Nat
  location : Option String
  contentType : String
  text : String
  json : List (String × Json)
  content : PyBytes
  deriving Repr

/-- `Client._session_expired`: status 302 and `location` header (defaulted to
the empty string when absent) equal to `auth_url`. -/
def session_expired (c : Cfg) (r : Response) : Bool :=
  if r.status == 302 then
    (r.location.getD "") == c.auth_url
  else
    false

/-- A row produced by `csv.DictReader`: header-keyed string fields. -/
abbrev CsvRow := List (String × String)

/-- `Client.unzip`: given the archive's member list, return the UTF-8 decoded
contents of the single member, or raise `GingrClientError` when the archive
holds any other number of files.  On non-zip bytes `zipfile.ZipFile` raises
`BadZipFile`. -/
def unzip (content : PyBytes) : Except PyError String :=
  match content with
  | .raw _ => .error .badZip
  | .zip members =>
    if members.length == 1 then
      .ok (members.headD ("", "")).2
    else
      .error (.gingr "Not sure which file to read in zip.")

/-- `Client._extract_csv`: zip-wrapped responses go through `unzip`; otherwise
only the text before the first `<!DOCTYPE html>` marker is fed to the CSV
reader.  `reader` stands for `csv.DictReader`. -/
def extract_csv (reader : String → List CsvRow) (r : Response) :
    Except PyError (List CsvRow) :=
  if isZipfile r.content then
    (unzip r.content).map reader
  else
    .ok (reader ((pySplit r.text "<!DOCTYPE html>").headD ""))

/-- The JSON-branch error test of `Client._get_from_content_type`:
`json_resp.get("error", False) or not json_resp.get("success", True)`. -/
def json_error_check (j : List (String × Json)) : Bool :=
  pyTruthy (dictGet j "error" (.b false)) || !(pyTruthy (dictGet j "success" (.b true)))

/-- The four possible return shapes of `Client._get_from_content_type`
(`ResponseType` in the source): CSV rows, parsed JSON dict, raw HTML text, or
the unparsed response object. -/
inductive Dispatched where
  | csvRows (rows : List CsvRow)
  | jsonDict (j : List (String × Json))
  | htmlText (t : String)
  | rawResponse (r : Response)
  deriving Repr

/-- `Client._get_from_content_type`: branch on the `content-type` header. -/
def get_from_content_type (reader : String → List CsvRow) (r : Response) :
    Except PyError Dispatched :=
  if r.contentType == "application/csv" || r.contentType == "\"text/csv\"" then
    (extract_csv reader r).map .csvRows
  else if pyIn "application/json" r.contentType then
    if json_error_check r.json then
      .error (.gingr "Error in json response")
    else
      .ok (.jsonDict r.json)
  else if pyIn "text/html" r.contentType then
    .ok (.htmlText r.text)
  else
    .ok (.rawResponse r)

/-- Claim C4: `Client._session_expired` returns True iff the status code is
302 and the `location` header equals `https://<subdomain>.gingrapp.com/auth/login`,
and False for every other status or location. -/
theorem session_expired_iff (c : Cfg) (r : Response) :
    session_expired c r = true ↔
      (r.status = 302 ∧ r.location.getD "" = c.auth_url) := by
  unfold session_expired
  by_cases h : r.status = 302 <;> simp [h]

/-- Claim C4 witness: concrete evaluations on both sides of the iff. -/
theorem session_expired_iff_witness :
    session_expired ⟨"demo"⟩
        ⟨302, some "https://demo.gingrapp.com/auth/login", "text/html", "", [], .raw ""⟩ = true ∧
    session_expired ⟨"demo"⟩
        ⟨200, some "https://demo.gingrapp.com/auth/login", "text/html", "", [], .raw ""⟩ = false :=
  ⟨(session_expired_iff ⟨"demo"⟩
      ⟨302, some "https://demo.gingrapp.com/auth/login", "text/html", "", [], .raw ""⟩).2
      (by exact ⟨rfl, by decide⟩),
   by decide⟩

/-- The first component produced by the Python splitter is the prefix of the
input up to (and excluding) the first occurrence of the separator: the rest of
the input either is empty or starts with the separator, and the separator
occurs nowhere inside the first component. -/
theorem pySplitAux_head_spec (c0 : Char) (sepRest : List Char) :
    ∀ fuel l acc, l.length ≤ fuel →
      ∃ t tail rest,
        pySplitAux c0 sepRest fuel acc l = (acc.reverse ++ t) :: tail ∧
        t ++ rest = l ∧
        listIsInfix (c0 :: sepRest) t = false ∧
        (rest = [] ∨ (c0 :: sepRest).isPrefixOf rest = true) := by
  intro fuel
  induction fuel with
  | zero =>
    intro l acc h
    have hl : l = [] := List.eq_nil_of_length_eq_zero (Nat.le_zero.mp h)
    subst hl
    exact ⟨[], [], [], by simp [pySplitAux], rfl, by simp [listIsInfix], Or.inl rfl⟩
  | succ n ih =>
    intro l acc h
    match l with
    | [] =>
      exact ⟨[], [], [], by simp [pySplitAux], rfl, by simp [listIsInfix], Or.inl rfl⟩
    | c :: l0 =>
      by_cases hm : c = c0 ∧ sepRest.isPrefixOf l0
      · refine ⟨[], pySplitAux c0 sepRest n [] (l0.drop sepRest.length), c :: l0,
          by simp [pySplitAux, hm], rfl, by simp [listIsInfix], Or.inr ?_⟩
        simp [List.isPrefixOf, hm.1, hm.2]
      · have hlen : l0.length ≤ n := by
          simp only [List.length_cons] at h
          omega
        obtain ⟨t, tail, rest, h1, h2, h3, h4⟩ := ih l0 (c :: acc) hlen
        refine ⟨c :: t, tail, rest, ?_, by simp [h2], ?_, h4⟩
        · have hstep : pySplitAux c0 sepRest (n + 1) acc (c :: l0) =
              pySplitAux c0 sepRest n (c :: acc) l0 := by
            simp only [pySplitAux]
            rw [if_neg hm]
          rw [hstep, h1]
          simp
        · simp only [listIsInfix, h3, Bool.or_false]
          cases hp : (c0 :: sepRest).isPrefixOf (c :: t)
          · rfl
          · exfalso
            rw [List.isPrefixOf_iff_prefix] at hp
            obtain ⟨hc, hsp⟩ := List.cons_prefix_cons.mp hp
            exact hm ⟨hc.symm,
              List.isPrefixOf_iff_prefix.mpr (hsp.trans ⟨rest, h2⟩)⟩

/-- String-level form of `pySplitAux_head_spec` for a non-empty separator. -/
theorem pySplit_head_spec (s sep : String) (hne : sep.data ≠ []) :
    ∃ before rest : String,
      (pySplit s sep).headD "" = before ∧
      before ++ rest = s ∧
      pyIn sep before = false ∧
      (rest = "" ∨ ∃ after, rest = sep ++ after) := by
  cases hd : sep.data with
  | nil => exact absurd hd hne
  | cons c0 sepRest =>
    obtain ⟨t, tail, rest, h1, h2, h3, h4⟩ :=
      pySplitAux_head_spec c0 sepRest s.data.length s.data [] (le_refl _)
    refine ⟨String.mk t, String.mk rest, ?_, ?_, ?_, ?_⟩
    · unfold pySplit
      rw [hd]
      simp only [pySplitGo]
      rw [h1]
      simp
    · show String.mk (t ++ rest) = s
      rw [h2]
    · show listIsInfix sep.data t = false
      rw [hd]
      exact h3
    · rcases h4 with h4 | h4
      · exact Or.inl (by rw [h4])
      · obtain ⟨after, ha⟩ := List.isPrefixOf_iff_prefix.mp h4
        refine Or.inr ⟨String.mk after, ?_⟩
        show String.mk rest = String.mk (sep.data ++ after)
        rw [hd, ha]

/-- Claim C5: for a valid zip archive, `Client.unzip` returns the decoded
contents of the single member and raises `GingrClientError` for any other
member count; `Client._extract_csv` routes zip-wrapped responses through
`unzip` and, for a non-zip response, feeds the CSV reader exactly the text
before the first `<!DOCTYPE html>` marker. -/
theorem unzip_extract_csv_spec (reader : String → List CsvRow) (r : Response)
    (name text : String) (members : List (String × String)) :
    (unzip (.zip [(name, text)]) = .ok text) ∧
    (members.length ≠ 1 →
      unzip (.zip members) = .error (.gingr "Not sure which file to read in zip.")) ∧
    (∀ ms, r.content = .zip ms → extract_csv reader r = (unzip (.zip ms)).map reader) ∧
    (∀ s, r.content = .raw s →
      ∃ before rest : String,
        extract_csv reader r = .ok (reader before) ∧
        before ++ rest = r.text ∧
        pyIn "<!DOCTYPE html>" before = false ∧
        (rest = "" ∨ ∃ after, rest = "<!DOCTYPE html>" ++ after)) := by
  refine ⟨by simp [unzip], ?_, ?_, ?_⟩
  · intro h
    have hb : (members.length == 1) = false := by simpa using h
    simp [unzip, hb]
  · intro ms hms
    simp [extract_csv, hms, isZipfile]
  · intro s hs
    obtain ⟨before, rest, h1, h2, h3, h4⟩ :=
      pySplit_head_spec r.text "<!DOCTYPE html>" (by decide)
    refine ⟨before, rest, ?_, h2, h3, h4⟩
    have hraw : extract_csv reader r =
        .ok (reader ((pySplit r.text "<!DOCTYPE html>").headD "")) := by
      simp [extract_csv, hs, isZipfile]
    rw [hraw, h1]

/-- Claim C5 witness: a singleton archive, an empty archive, a zip-wrapped
response and a plain-text response with an HTML suffix. -/
theorem unzip_extract_csv_spec_witness :
    unzip (.zip [("f.csv", "a,b")]) = .ok "a,b" ∧
    unzip (.zip []) = .error (.gingr "Not sure which file to read in zip.") ∧
    extract_csv (fun s => [[("row", s)]])
        ⟨200, none, "application/csv", "t", [], .zip [("f.csv", "a,b")]⟩ =
      (unzip (.zip [("f.csv", "a,b")])).map (fun s => [[("row", s)]]) ∧
    (∃ before rest : String,
      extract_csv (fun s => [[("row", s)]])
          ⟨200, none, "application/csv", "a,b<!DOCTYPE html>x", [],
            .raw "a,b<!DOCTYPE html>x"⟩ =
        .ok [[("row", before)]] ∧
      before ++ rest = "a,b<!DOCTYPE html>x" ∧
      pyIn "<!DOCTYPE html>" before = false ∧
      (rest = "" ∨ ∃ after, rest = "<!DOCTYPE html>" ++ after)) := by
  obtain ⟨w1, w2, w3, w4⟩ :=
    unzip_extract_csv_spec (fun s => [[("row", s)]])
      ⟨200, none, "application/csv", "a,b<!DOCTYPE html>x", [],
        .raw "a,b<!DOCTYPE html>x"⟩
      "f.csv" "a,b" []
  refine ⟨w1, w2 (by decide), ?_, ?_⟩
  · exact unzip_extract_csv_spec (fun s => [[("row", s)]])
      ⟨200, none, "application/csv", "t", [], .zip [("f.csv", "a,b")]⟩
      "f.csv" "a,b" [] |>.2.2.1 [("f.csv", "a,b")] rfl
  · obtain ⟨before, rest, h1, h2, h3, h4⟩ := w4 "a,b<!DOCTYPE html>x" rfl
    exact ⟨before, rest, h1, h2, h3, h4⟩

/-- Helper: a content type containing `application/json` is neither of the two
exact CSV content-type strings. -/
theorem pyIn_json_ne_csv (ct : String) (h : pyIn "application/json" ct = true) :
    ct ≠ "application/csv" ∧ ct ≠ "\"text/csv\"" := by
  constructor <;> rintro rfl <;> exact absurd h (by decide)

/-- Helper: a content type containing `text/html` is neither of the two exact
CSV content-type strings. -/
theorem pyIn_html_ne_csv (ct : String) (h : pyIn "text/html" ct = true) :
    ct ≠ "application/csv" ∧ ct ≠ "\"text/csv\"" := by
  constructor <;> rintro rfl <;> exact absurd h (by decide)

/-- Helper: on the JSON branch `Client._get_from_content_type` reduces to the
error check followed by returning the parsed dict. -/
theorem get_from_content_type_json (reader : String → List CsvRow) (r : Response)
    (h : pyIn "application/json" r.contentType = true) :
    get_from_content_type reader r =
      if json_error_check r.json then
        .error (.gingr "Error in json response")
      else
        .ok (.jsonDict r.json) := by
  obtain ⟨hne1, hne2⟩ := pyIn_json_ne_csv r.contentType h
  have hb : (r.contentType == "application/csv" ||
      r.contentType == "\"text/csv\"") = false := by
    simp [hne1, hne2]
  simp [get_from_content_type, hb, h]

/-- Claim C3: `Client._get_from_content_type` dispatches on the Content-Type
header, in the order the code checks it: exact CSV content types go to the CSV
extractor, then a header containing `application/json` goes to the JSON
branch, then a header containing `text/html` yields the raw response text, and
anything else yields the unparsed response object. -/
theorem get_from_content_type_dispatch (reader : String → List CsvRow) (r : Response) :
    ((r.contentType = "application/csv" ∨ r.contentType = "\"text/csv\"") →
      get_from_content_type reader r = (extract_csv reader r).map .csvRows) ∧
    (pyIn "application/json" r.contentType = true →
      get_from_content_type reader r =
        if json_error_check r.json then
          .error (.gingr "Error in json response")
        else
          .ok (.jsonDict r.json)) ∧
    (pyIn "text/html" r.contentType = true →
      pyIn "application/json" r.contentType = false →
      get_from_content_type reader r = .ok (.htmlText r.text)) ∧
    (r.contentType ≠ "application/csv" → r.contentType ≠ "\"text/csv\"" →
      pyIn "application/json" r.contentType = false →
      pyIn "text/html" r.contentType = false →
      get_from_content_type reader r = .ok (.rawResponse r)) := by
  refine ⟨?_, get_from_content_type_json reader r, ?_, ?_⟩
  · rintro (hc | hc) <;> simp [get_from_content_type, hc]
  · intro hh hj
    obtain ⟨hne1, hne2⟩ := pyIn_html_ne_csv r.contentType hh
    have hb : (r.contentType == "application/csv" ||
        r.contentType == "\"text/csv\"") = false := by
      simp [hne1, hne2]
    simp [get_from_content_type, hb, hj, hh]
  · intro hne1 hne2 hj hh
    have hb : (r.contentType == "application/csv" ||
        r.contentType == "\"text/csv\"") = false := by
      simp [hne1, hne2]
    simp [get_from_content_type, hb, hj, hh]

/-- Claim C3 witness: one concrete response per dispatch branch. -/
theorem get_from_content_type_dispatch_witness :
    get_from_content_type (fun _ => []) ⟨200, none, "application/csv", "t", [], .raw "t"⟩ =
      (extract_csv (fun _ => []) ⟨200, none, "application/csv", "t", [], .raw "t"⟩).map
        .csvRows ∧
    get_from_content_type (fun _ => [])
        ⟨200, none, "application/json; charset=utf-8", "t", [("a", .i 1)], .raw "t"⟩ =
      .ok (.jsonDict [("a", .i 1)]) ∧
    get_from_content_type (fun _ => [])
        ⟨200, none, "text/html; charset=utf-8", "page", [], .raw "page"⟩ =
      .ok (.htmlText "page") ∧
    get_from_content_type (fun _ => [])
        ⟨200, none, "image/jpeg", "t", [], .raw "t"⟩ =
      .ok (.rawResponse ⟨200, none, "image/jpeg", "t", [], .raw "t"⟩) := by
  refine ⟨?_, ?_, ?_, ?_⟩
  · exact (get_from_content_type_dispatch (fun _ => [])
      ⟨200, none, "application/csv", "t", [], .raw "t"⟩).1 (Or.inl rfl)
  · exact (get_from_content_type_dispatch (fun _ => [])
      ⟨200, none, "application/json; charset=utf-8", "t", [("a", .i 1)], .raw "t"⟩).2.1
      (by decide)
  · exact (get_from_content_type_dispatch (fun _ => [])
      ⟨200, none, "text/html; charset=utf-8", "page", [], .raw "page"⟩).2.2.1
      (by decide) (by decide)
  · exact (get_from_content_type_dispatch (fun _ => [])
      ⟨200, none, "image/jpeg", "t", [], .raw "t"⟩).2.2.2
      (by decide) (by decide) (by decide) (by decide)

/-- Helper: the boolean error check equals the claim's "present and truthy /
present and falsy" characterisation. -/
theorem json_error_check_iff (j : List (String × Json)) :
    json_error_check j = true ↔
      (∃ v, j.find? (fun kv => kv.1 == "error") = some v ∧ pyTruthy v.2 = true) ∨
      (∃ v, j.find? (fun kv => kv.1 == "success") = some v ∧ pyTruthy v.2 = false) := by
  unfold json_error_check dictGet
  cases he : j.find? (fun kv => kv.1 == "error") <;>
    cases hs : j.find? (fun kv => kv.1 == "success") <;>
      simp [pyTruthy]

/-- Claim C9: on a response whose Content-Type contains `application/json`,
`Client._get_from_content_type` raises `GingrClientError` iff the parsed
object's `error` field is present and truthy or its `success` field is present
and falsy; otherwise it returns the parsed dict unchanged. -/
theorem json_branch_error_iff (reader : String → List CsvRow) (r : Response)
    (h : pyIn "application/json" r.contentType = true) :
    (get_from_content_type reader r = .error (.gingr "Error in json response") ↔
      (∃ v, r.json.find? (fun kv => kv.1 == "error") = some v ∧ pyTruthy v.2 = true) ∨
      (∃ v, r.json.find? (fun kv => kv.1 == "success") = some v ∧ pyTruthy v.2 = false)) ∧
    (¬ ((∃ v, r.json.find? (fun kv => kv.1 == "error") = some v ∧ pyTruthy v.2 = true) ∨
        (∃ v, r.json.find? (fun kv => kv.1 == "success") = some v ∧ pyTruthy v.2 = false)) →
      get_from_content_type reader r = .ok (.jsonDict r.json)) := by
  rw [get_from_content_type_json reader r h]
  constructor
  · rw [← json_error_check_iff]
    cases hc : json_error_check r.json <;> simp [hc]
  · intro hn
    rw [← json_error_check_iff] at hn
    have hc : json_error_check r.json = false := by
      cases hc : json_error_check r.json
      · rfl
      · exact absurd hc hn
    simp [hc]

/-- Claim C9 witness: a JSON response with truthy `error` raises; one with
both fields absent passes through unchanged. -/
theorem json_branch_error_iff_witness :
    get_from_content_type (fun _ => [])
        ⟨200, none, "application/json", "t", [("error", .s "boom")], .raw "t"⟩ =
      .error (.gingr "Error in json response") ∧
    get_from_content_type (fun _ => [])
        ⟨200, none, "application/json", "t", [("data", .i 7)], .raw "t"⟩ =
      .ok (.jsonDict [("data", .i 7)]) := by
  constructor
  · exact (json_branch_error_iff (fun _ => [])
      ⟨200, none, "application/json", "t", [("error", .s "boom")], .raw "t"⟩
      (by decide)).1.mpr (Or.inl ⟨("error", .s "boom"), rfl, rfl⟩)
  · exact (json_branch_error_iff (fun _ => [])
      ⟨200, none, "application/json", "t", [("data", .i 7)], .raw "t"⟩
      (by decide)).2 (by simp)

/-- Observable events of `Client.get` / `Client.post`: each HTTP attempt is
recorded; a `delay` event would record a sleep between attempts (the source
has none — the retry loop is flat, without backoff). -/
inductive ReqEvent where
  | attempt (i : Nat)
  | delay (seconds : Nat)
  deriving DecidableEq, Repr

/-- Outcome of a `Client.get` / `Client.post` call: the trace of events, the
validity of the session held afterwards, and the returned value or raised
error. -/
structure LoopResult where
  trace : List ReqEvent
  sessionValid : Bool
  result : Except PyError Dispatched

/-- `MAX_RETRIES = int(os.getenv("MAX_RETRIES", "3"))`: the default value.
The theorems below are stated for an arbitrary retry bound. -/
def MAX_RETRIES : Nat := 3

/-- The shared `while attempts < MAX_RETRIES` loop of `Client.get` and
`Client.post`.  `oracle i v` is the outcome of the i-th HTTP attempt given
session validity `v`: `none` models `requests.RequestException` (the
`except` branch increments the counter and continues), `some resp` a
returned response.  On a response, session expiry triggers `_login`
(modelled as making the session valid), and the dispatch of that same
response is returned.  The fuel argument equals `MAX_RETRIES - attempts`. -/
def requestLoopAux (cfg : Cfg) (reader : String → List CsvRow)
    (oracle : Nat → Bool → Option Response) (valid : Bool) (i : Nat) :
    Nat → LoopResult
  | 0 => ⟨[], valid, .error (.gingr "Too many bad requests")⟩
  | remaining + 1 =>
    match oracle i valid with
    | none =>
      let r := requestLoopAux cfg reader oracle valid (i + 1) remaining
      ⟨.attempt i :: r.trace, r.sessionValid, r.result⟩
    | some resp =>
      ⟨[.attempt i],
       if session_expired cfg resp then true else valid,
       get_from_content_type reader resp⟩

/-- `Client.get`: the retry loop started with `attempts = 0`. -/
def Client.get (cfg : Cfg) (reader : String → List CsvRow)
    (oracle : Nat → Bool → Option Response) (valid : Bool)
    (maxRetries : Nat) : LoopResult :=
  requestLoopAux cfg reader oracle valid 0 maxRetries

/-- `Client.post`: identical loop shape to `Client.get` in the source. -/
def Client.post (cfg : Cfg) (reader : String → List CsvRow)
    (oracle : Nat → Bool → Option Response) (valid : Bool)
    (maxRetries : Nat) : LoopResult :=
  requestLoopAux cfg reader oracle valid 0 maxRetries

/-- Helper: when every attempt raises, the loop makes one attempt per unit of
fuel and then raises `GingrClientError`. -/
theorem requestLoopAux_all_fail (cfg : Cfg) (reader : String → List CsvRow)
    (oracle : Nat → Bool → Option Response) (valid : Bool) :
    ∀ remaining i, (∀ j, j < remaining → oracle (i + j) valid = none) →
      requestLoopAux cfg reader oracle valid i remaining =
        ⟨(List.range' i remaining).map .attempt, valid,
          .error (.gingr "Too many bad requests")⟩ := by
  intro remaining
  induction remaining with
  | zero => intro i _; rfl
  | succ n ih =>
    intro i hall
    have h0 : oracle i valid = none := by simpa using hall 0 (Nat.succ_pos n)
    have hrec := ih (i + 1) (fun j hj => by
      have := hall (j + 1) (by omega)
      simpa [Nat.add_assoc, Nat.add_comm 1 j] using this)
    simp only [requestLoopAux, h0, hrec, List.range'_succ, List.map_cons]

/-- Helper: the first non-raising attempt ends the loop at once with the
dispatch of its response; expiry of that response re-validates the session. -/
theorem requestLoopAux_first_ok (cfg : Cfg) (reader : String → List CsvRow)
    (oracle : Nat → Bool → Option Response) (valid : Bool) :
    ∀ remaining i k resp, k < remaining →
      (∀ j, j < k → oracle (i + j) valid = none) →
      oracle (i + k) valid = some resp →
      requestLoopAux cfg reader oracle valid i remaining =
        ⟨(List.range' i (k + 1)).map .attempt,
         if session_expired cfg resp then true else valid,
         get_from_content_type reader resp⟩ := by
  intro remaining
  induction remaining with
  | zero => intro i k resp hk; omega
  | succ n ih =>
    intro i k resp hk hfail hok
    cases k with
    | zero =>
      have h0 : oracle i valid = some resp := by simpa using hok
      simp [requestLoopAux, h0, List.range'_succ]
    | succ m =>
      have h0 : oracle i valid = none := by simpa using hfail 0 (Nat.succ_pos m)
      have hrec := ih (i + 1) m resp (by omega)
        (fun j hj => by
          have := hfail (j + 1) (by omega)
          simpa [Nat.add_assoc, Nat.add_comm 1 j] using this)
        (by
          have := hok
          simpa [Nat.add_assoc, Nat.add_comm 1 m] using this)
      simp only [requestLoopAux, h0, hrec, List.range'_succ, List.map_cons]

/-- Helper: every event the loop emits is an attempt — never a delay. -/
theorem requestLoopAux_trace_attempts (cfg : Cfg) (reader : String → List CsvRow)
    (oracle : Nat → Bool → Option Response) (valid : Bool) :
    ∀ remaining i e,
      e ∈ (requestLoopAux cfg reader oracle valid i remaining).trace →
      ∃ j, e = .attempt j := by
  intro remaining
  induction remaining with
  | zero => intro i e h; simp [requestLoopAux] at h
  | succ n ih =>
    intro i e h
    rw [requestLoopAux] at h
    cases ho : oracle i valid with
    | none =>
      rw [ho] at h
      simp only [List.mem_cons] at h
      rcases h with h | h
      · exact ⟨i, h⟩
      · exact ih (i + 1) e h
    | some resp =>
      rw [ho] at h
      simp only [List.mem_singleton] at h
      exact ⟨i, h⟩

/-- Claim C1: when every attempt raises `requests.RequestException`,
`Client.get` and `Client.post` make exactly `maxRetries` attempts and raise
`GingrClientError`; the first attempt that does not raise ends the call at
once (after `k` failures, exactly `k + 1` attempts); and the trace holds no
delay event — the retry is flat, with no backoff. -/
theorem client_retry_flat (cfg : Cfg) (reader : String → List CsvRow)
    (oracle : Nat → Bool → Option Response) (valid : Bool) (maxRetries : Nat) :
    ((∀ i, i < maxRetries → oracle i valid = none) →
      Client.get cfg reader oracle valid maxRetries =
        ⟨(List.range maxRetries).map .attempt, valid,
          .error (.gingr "Too many bad requests")⟩ ∧
      Client.post cfg reader oracle valid maxRetries =
        ⟨(List.range maxRetries).map .attempt, valid,
          .error (.gingr "Too many bad requests")⟩) ∧
    (∀ k resp, k < maxRetries → (∀ i, i < k → oracle i valid = none) →
      oracle k valid = some resp →
      Client.get cfg reader oracle valid maxRetries =
        ⟨(List.range (k + 1)).map .attempt,
         if session_expired cfg resp then true else valid,
         get_from_content_type reader resp⟩ ∧
      Client.post cfg reader oracle valid maxRetries =
        ⟨(List.range (k + 1)).map .attempt,
         if session_expired cfg resp then true else valid,
         get_from_content_type reader resp⟩) ∧
    (∀ d, ReqEvent.delay d ∉ (Client.get cfg reader oracle valid maxRetries).trace ∧
      ReqEvent.delay d ∉ (Client.post cfg reader oracle valid maxRetries).trace) := by
  refine ⟨?_, ?_, ?_⟩
  · intro hall
    have h := requestLoopAux_all_fail cfg reader oracle valid maxRetries 0
      (fun j hj => by simpa using hall j hj)
    rw [List.range_eq_range']
    exact ⟨h, h⟩
  · intro k resp hk hfail hok
    have h := requestLoopAux_first_ok cfg reader oracle valid maxRetries 0 k resp hk
      (fun j hj => by simpa using hfail j hj) (by simpa using hok)
    rw [List.range_eq_range']
    exact ⟨h, h⟩
  · intro d
    have hattempts := requestLoopAux_trace_attempts cfg reader oracle valid maxRetries 0
    constructor
    · intro hmem
      obtain ⟨j, hj⟩ := hattempts (ReqEvent.delay d) hmem
      exact ReqEvent.noConfusion hj
    · intro hmem
      obtain ⟨j, hj⟩ := hattempts (ReqEvent.delay d) hmem
      exact ReqEvent.noConfusion hj

/-- Claim C1 witness: with the default `MAX_RETRIES = 3` and every attempt
raising, exactly three attempts happen and the call raises; with the second
attempt succeeding, exactly two attempts happen. -/
theorem client_retry_flat_witness :
    Client.get ⟨"demo"⟩ (fun _ => []) (fun _ _ => none) true MAX_RETRIES =
      ⟨[.attempt 0, .attempt 1, .attempt 2], true,
        .error (.gingr "Too many bad requests")⟩ ∧
    Client.get ⟨"demo"⟩ (fun _ => [])
        (fun i _ => if i = 1 then some ⟨200, none, "text/html", "ok", [], .raw "ok"⟩
                    else none) true MAX_RETRIES =
      ⟨[.attempt 0, .attempt 1], true, .ok (.htmlText "ok")⟩ := by
  constructor
  · have h := (client_retry_flat ⟨"demo"⟩ (fun _ => []) (fun _ _ => none) true
      MAX_RETRIES).1 (fun i _ => rfl)
    exact h.1
  · have h := ((client_retry_flat ⟨"demo"⟩ (fun _ => [])
      (fun i _ => if i = 1 then some ⟨200, none, "text/html", "ok", [], .raw "ok"⟩
                  else none) true MAX_RETRIES).2.1 1
      ⟨200, none, "text/html", "ok", [], .raw "ok"⟩
      (by decide) (fun i hi => by interval_cases i; rfl) rfl).1
    rw [h]
    rfl

/-- Concrete world for the session-expiry claims: the vendor answers a request
with a redirect to the login page when the session is invalid and with the
real content when it is valid. -/
def cfgEx : Cfg := ⟨"demo"⟩

/-- The redirect-to-login response the server gives an expired session. -/
def loginRedirect : Response :=
  ⟨302, some "https://demo.gingrapp.com/auth/login", "text/html", "please login",
    [], .raw "please login"⟩

/-- The real content the server gives a valid session. -/
def dataResp : Response :=
  ⟨200, none, "text/html", "DATA", [], .raw "DATA"⟩

/-- The vendor as a function of session validity. -/
def serverEx : Bool → Response :=
  fun v => if v then dataResp else loginRedirect

/-- Claim C2 counterexample: with an expired session the caller receives the
dispatch of the login redirect, which differs from the result the same call
gives when the session is valid — so the caller does NOT transparently
receive the result of the originally requested operation. -/
theorem relogin_not_transparent_counterexample :
    (Client.get cfgEx (fun _ => []) (fun _ v => some (serverEx v)) false 3).result =
      .ok (.htmlText "please login") ∧
    (Client.get cfgEx (fun _ => []) (fun _ v => some (serverEx v)) true 3).result =
      .ok (.htmlText "DATA") ∧
    (Client.get cfgEx (fun _ => []) (fun _ v => some (serverEx v)) false 3).result ≠
      (Client.get cfgEx (fun _ => []) (fun _ v => some (serverEx v)) true 3).result := by
  have h1 : (Client.get cfgEx (fun _ => []) (fun _ v => some (serverEx v)) false 3).result =
      .ok (.htmlText "please login") := rfl
  have h2 : (Client.get cfgEx (fun _ => []) (fun _ v => some (serverEx v)) true 3).result =
      .ok (.htmlText "DATA") := rfl
  refine ⟨h1, h2, ?_⟩
  rw [h1, h2]
  intro h
  injection h with h
  injection h with h
  exact absurd h (by decide)

/-- Claim C2 (amended): when the response signals session expiry the client
re-authenticates — the session it holds afterwards is valid — but the value
returned to the caller is the content-type dispatch of the expired redirect
response itself, not the result of re-issuing the original operation. -/
theorem relogin_behavior (cfg : Cfg) (reader : String → List CsvRow)
    (server : Bool → Response) (valid : Bool) (maxRetries : Nat)
    (hmr : 0 < maxRetries)
    (hexp : session_expired cfg (server valid) = true) :
    Client.get cfg reader (fun _ v => some (server v)) valid maxRetries =
      ⟨[.attempt 0], true, get_from_content_type reader (server valid)⟩ ∧
    Client.post cfg reader (fun _ v => some (server v)) valid maxRetries =
      ⟨[.attempt 0], true, get_from_content_type reader (server valid)⟩ := by
  obtain ⟨m, rfl⟩ : ∃ m, maxRetries = m + 1 := ⟨maxRetries - 1, by omega⟩
  have h : requestLoopAux cfg reader (fun _ v => some (server v)) valid 0 (m + 1) =
      ⟨[.attempt 0], true, get_from_content_type reader (server valid)⟩ := by
    simp [requestLoopAux, hexp]
  exact ⟨h, h⟩

/-- Claim C2 amended-theorem witness: the concrete expired-session world. -/
theorem relogin_behavior_witness :
    Client.get cfgEx (fun _ => []) (fun _ v => some (serverEx v)) false 3 =
      ⟨[.attempt 0], true, get_from_content_type (fun _ => []) (serverEx false)⟩ :=
  (relogin_behavior cfgEx (fun _ => []) serverEx false 3 (by decide) (by decide)).1

/-- Configuration of a `cachetools.TTLCache`. -/
structure TTLCacheCfg where
  maxsize : Nat
  ttl : Nat
  deriving DecidableEq, Repr

/-- `Client.__init__`: `self.reservation_types = TTLCache(maxsize=100, ttl=3600)`. -/
def reservation_types_cache : TTLCacheCfg :=
  ⟨100, 3600⟩

/-- A stored cache entry: the value and its expiry time (store time + ttl),
as `cachetools` records it. -/
structure TTLCacheEntry (α : Type) where
  value : α
  expires : Nat
  deriving DecidableEq, Repr

/-- State of the single-key cache backing the `@cachedmethod` on
`get_reservation_types` (the method takes no arguments, so there is exactly
one cache key). -/
structure TTLCacheState (α : Type) where
  entry : Option (TTLCacheEntry α)
  deriving DecidableEq, Repr

/-- `cachetools.cachedmethod` semantics over one key: return the stored value
while it is unexpired (now < store time + ttl); otherwise call the wrapped
method and store its result.  The boolean records whether the wrapped method
(the HTTP fetch) actually ran. -/
def cachedFetch {α : Type} (cfg : TTLCacheCfg) (fetch : Nat → α)
    (st : TTLCacheState α) (now : Nat) : α × TTLCacheState α × Bool :=
  match st.entry with
  | some e =>
    if now < e.expires then
      (e.value, st, false)
    else
      (fetch now, ⟨some ⟨fetch now, now + cfg.ttl⟩⟩, true)
  | none => (fetch now, ⟨some ⟨fetch now, now + cfg.ttl⟩⟩, true)

/-- `Client.get_reservation_types` viewed through its memoisation: `fetch`
stands for the HTTP body of the method (the `reservation_types_by_booking_category`
call followed by `ReservationType.from_json` mapping). -/
def get_reservation_types {α : Type} (fetch : Nat → α)
    (st : TTLCacheState α) (now : Nat) : α × TTLCacheState α × Bool :=
  cachedFetch reservation_types_cache fetch st now

/-- Claim C6: the `get_reservation_types` cache is the bounded
`TTLCache(maxsize=100, ttl=3600)` dedicated to that endpoint: a first call
fetches and stores; a second call within 3600 seconds returns the same value
with no HTTP request; a call 3600 or more seconds after the store fetches
again. -/
theorem get_reservation_types_cached {α : Type} (fetch : Nat → α)
    (t0 t1 t2 : Nat) :
    reservation_types_cache = ⟨100, 3600⟩ ∧
    get_reservation_types fetch ⟨none⟩ t0 =
      (fetch t0, ⟨some ⟨fetch t0, t0 + 3600⟩⟩, true) ∧
    (t1 < t0 + 3600 →
      get_reservation_types fetch ⟨some ⟨fetch t0, t0 + 3600⟩⟩ t1 =
        (fetch t0, ⟨some ⟨fetch t0, t0 + 3600⟩⟩, false)) ∧
    (t0 + 3600 ≤ t2 →
      get_reservation_types fetch ⟨some ⟨fetch t0, t0 + 3600⟩⟩ t2 =
        (fetch t2, ⟨some ⟨fetch t2, t2 + 3600⟩⟩, true)) := by
  refine ⟨rfl, rfl, ?_, ?_⟩
  · intro h
    simp [get_reservation_types, cachedFetch, reservation_types_cache, h]
  · intro h
    have hn : ¬ t2 < t0 + 3600 := by omega
    simp [get_reservation_types, cachedFetch, reservation_types_cache, hn]

/-- Claim C6 witness: fetch at time 0, hit at time 3599, refetch at 3600. -/
theorem get_reservation_types_cached_witness :
    get_reservation_types (fun n => [n]) ⟨none⟩ 0 =
      ([0], ⟨some ⟨[0], 3600⟩⟩, true) ∧
    get_reservation_types (fun n => [n]) ⟨some ⟨[0], 3600⟩⟩ 3599 =
      ([0], ⟨some ⟨[0], 3600⟩⟩, false) ∧
    get_reservation_types (fun n => [n]) ⟨some ⟨[0], 3600⟩⟩ 3600 =
      ([3600], ⟨some ⟨[3600], 7200⟩⟩, true) := by
  obtain ⟨-, h1, h2, h3⟩ := get_reservation_types_cached (fun n => [n]) 0 3599 3600
  exact ⟨h1, h2 (by decide), h3 (by decide)⟩

/-- `re.search("window.apiKey = ", line)` tested at one position: the regex is
the literal text `window`, then `.` — any character except newline — then
`apiKey = `. -/
def apikeyMatchHere (l : List Char) : Bool :=
  "window".data.isPrefixOf l &&
    (match l.drop 6 with
     | [] => false
     | c :: rest => c != '\n' && "apiKey = ".data.isPrefixOf rest)

/-- `re.search` over the whole line: does the pattern match at any position? -/
def apikeyMatch : List Char → Bool
  | [] => false
  | c :: rest => apikeyMatchHere (c :: rest) || apikeyMatch rest

/-- `line.split(" = ")[-1].replace("'", "").strip().strip(";")`. -/
def extractApikeyFromLine (line : String) : String :=
  pyStripSemi (pyStrip (String.mk
    (((pySplit line " = ").getLastD "").data.filter (fun c => c != '\''))))

/-- Line scan of `Client._extract_window_apikey`. -/
def extract_window_apikey_go : List String → Except PyError String
  | [] => .error (.gingr "Could not get apikey")
  | line :: rest =>
    if apikeyMatch line.data then
      .ok (extractApikeyFromLine line)
    else
      extract_window_apikey_go rest

/-- `Client._extract_window_apikey`: iterate the lines of the HTML (the
`io.StringIO` line iterator cuts at newlines) and extract from the first line
the regex matches; raise `GingrClientError` when no line matches. -/
def extract_window_apikey (html : String) : Except PyError String :=
  extract_window_apikey_go (pySplit html "\n")

/-- Claim C7 counterexample: the pattern given to `re.search` is a regex in
which `.` matches any character, so a line NOT containing the literal text
`window.apiKey = ` still triggers extraction; and `strip(";")` strips
semicolons from both ends, not only a trailing one.  The claim as stated
says the first input must raise `GingrClientError` and the second must keep
its leading semicolon. -/
theorem extract_window_apikey_counterexample :
    pyIn "window.apiKey = " "windowXapiKey = 'k';" = false ∧
    extract_window_apikey "windowXapiKey = 'k';" = .ok "k" ∧
    extract_window_apikey "window.apiKey = ';abc;'" = .ok "abc" := by
  refine ⟨by decide, rfl, rfl⟩

/-- Claim C7 (amended): scanning line by line, on the first line matching the
regex `window.apiKey = ` (where the dot matches any character other than a
newline) the code returns the text after the last ` = ` with all single
quotes removed, surrounding whitespace stripped, then semicolons stripped
from both ends; if no line matches, it raises `GingrClientError`. -/
theorem extract_window_apikey_spec (html : String) :
    extract_window_apikey html =
      match (pySplit html "\n").find? (fun line => apikeyMatch line.data) with
      | some line =>
        .ok (pyStripSemi (pyStrip (String.mk
          (((pySplit line " = ").getLastD "").data.filter (fun c => c != '\'')))))
      | none => .error (.gingr "Could not get apikey") := by
  unfold extract_window_apikey
  induction pySplit html "\n" with
  | nil => rfl
  | cons l rest ih =>
    by_cases h : apikeyMatch l.data = true
    · simp [extract_window_apikey_go, extractApikeyFromLine, List.find?, h]
    · have hf : apikeyMatch l.data = false := by
        cases hq : apikeyMatch l.data
        · rfl
        · exact absurd hq h
      simp [extract_window_apikey_go, List.find?, hf, ih]

/-- Cookies as `_establish_session` consumes them: (name, value) pairs. -/
abbrev CookieJar := List (String × String)

/-- One string, length-prefixed, as a flat byte (`Nat`) sequence — the
serialisation model for `pickle.dump`. -/
def encodeStr (s : String) : List Nat :=
  s.data.length :: s.data.map Char.toNat

/-- Flat encoding of all cookie pairs. -/
def encodeJar : CookieJar → List Nat
  | [] => []
  | (n, v) :: rest => encodeStr n ++ encodeStr v ++ encodeJar rest

/-- `pickle.dump(cookies, f)`: the byte content written to the file. -/
def pickle_dump (jar : CookieJar) : List Nat :=
  jar.length :: encodeJar jar

/-- Read one length-prefixed string; `none` on truncated input. -/
def decodeStr : List Nat → Option (String × List Nat)
  | [] => none
  | n :: rest =>
    if n ≤ rest.length then
      some (String.mk ((rest.take n).map Char.ofNat), rest.drop n)
    else
      none

/-- Read `k` cookie pairs. -/
def decodePairs : Nat → List Nat → Option CookieJar
  | 0, _ => some []
  | k + 1, bytes => do
    let p1 ← decodeStr bytes
    let p2 ← decodeStr p1.2
    let rest ← decodePairs k p2.2
    pure ((p1.1, p2.1) :: rest)

/-- `pickle.load(f)`: decode the byte content back into a cookie jar. -/
def pickle_load (bytes : List Nat) : Option CookieJar :=
  match bytes with
  | [] => none
  | k :: rest => decodePairs k rest

/-- The filesystem: a map from path to stored bytes. -/
def FS : Type :=
  String → Option (List Nat)

/-- `Client.save_cookies(cookies, filename)`: write the pickled bytes. -/
def save_cookies (fs : FS) (filename : String) (cookies : CookieJar) : FS :=
  fun p => if p = filename then some (pickle_dump cookies) else fs p

/-- `Client.load_cookies(filename)`: read and unpickle. -/
def load_cookies (fs : FS) (filename : String) : Option CookieJar :=
  (fs filename).bind pickle_load

/-- Helper: decoding undoes encoding of one string, leaving the tail. -/
theorem decodeStr_encodeStr (s : String) (t : List Nat) :
    decodeStr (encodeStr s ++ t) = some (s, t) := by
  show decodeStr (s.data.length :: (s.data.map Char.toNat ++ t)) = some (s, t)
  rw [decodeStr]
  have hlen : s.data.length ≤ (s.data.map Char.toNat ++ t).length := by
    simp
  rw [if_pos hlen]
  have htake : (s.data.map Char.toNat ++ t).take s.data.length = s.data.map Char.toNat := by
    rw [show s.data.length = (s.data.map Char.toNat).length by simp]
    exact List.take_left _ _
  have hdrop : (s.data.map Char.toNat ++ t).drop s.data.length = t := by
    rw [show s.data.length = (s.data.map Char.toNat).length by simp]
    exact List.drop_left _ _
  rw [htake, hdrop, List.map_map]
  have : (Char.ofNat ∘ Char.toNat) = id := by
    funext c
    exact Char.ofNat_toNat c
  rw [this, List.map_id]

/-- Helper: decoding undoes encoding of a whole jar. -/
theorem decodePairs_encodeJar (jar : CookieJar) :
    decodePairs jar.length (encodeJar jar) = some jar := by
  induction jar with
  | nil => rfl
  | cons p rest ih =>
    obtain ⟨n, v⟩ := p
    show decodePairs (rest.length + 1) (encodeStr n ++ encodeStr v ++ encodeJar rest) =
      some ((n, v) :: rest)
    rw [decodePairs]
    rw [List.append_assoc, decodeStr_encodeStr]
    simp only [Option.bind_eq_bind, Option.some_bind]
    rw [decodeStr_encodeStr]
    simp only [Option.some_bind]
    rw [ih]
    rfl

/-- Claim C8: `save_cookies` followed by `load_cookies` on the same path
returns the persisted cookie jar — the pickled session survives the disk
round trip, so a later process can reload it. -/
theorem save_load_cookies_roundtrip (fs : FS) (filename : String)
    (cookies : CookieJar) :
    load_cookies (save_cookies fs filename cookies) filename = some cookies := by
  show (if filename = filename then some (pickle_dump cookies)
        else fs filename).bind pickle_load = some cookies
  rw [if_pos rfl]
  show pickle_load (pickle_dump cookies) = some cookies
  rw [pickle_dump, pickle_load]
  exact decodePairs_encodeJar cookies

/-- `bool_helper` from response_objects.py: map a handful of string forms to
booleans, defaulting to `False`. -/
def bool_helper (x : String) : Bool :=
  if x = "0" ∨ x = "false" ∨ x = "False" then false
  else if x = "1" ∨ x = "true" ∨ x = "True" then true
  else false

/-- `Icon` dataclass: the template all instances of an icon build off.
`fontawesome_class` carries the JSON key `class`. -/
structure Icon where
  id : Int
  fontawesome_icon_id : Int
  fontawesome_class : String
  title : String
  color : String
  capacity : Option Int
  group_name : Option String
  secondary_color : Option String := none
  type : String := "custom"
  deriving DecidableEq, Repr

/-- `CustomAnimalIcon` dataclass. -/
structure CustomAnimalIcon where
  icon_id : Int
  animal_id : Int
  content : Option String
  comment : Option String
  deriving DecidableEq, Repr

/-- `SystemAnimalIcon` dataclass. -/
structure SystemAnimalIcon where
  icon_id : Int
  animal_id : Int
  enabled : Bool
  color : String
  secondary_color : Option String
  title : String
  fontawesome_icon_id : Int
  fontawesome_class : String
  comment : Option String
  content : Option String
  deriving DecidableEq, Repr

/-- The `AnimalIcon` union type alias. -/
inductive AnimalIcon where
  | custom (c : CustomAnimalIcon)
  | system (s : SystemAnimalIcon)
  deriving DecidableEq, Repr

/-- One entry of `resp["icon_templates"]["animal_templates"]`, with the
numeric fields already int-parsed (`int(...)` / `int_or_none(...)` in the
source).  `fa_class` carries the JSON key `class`. -/
structure RawTemplate where
  id : Int
  fontawesome_icon_id : Int
  fa_class : String
  title : String
  color : String
  capacity : Option Int
  group_name : Option String
  deriving DecidableEq, Repr

/-- One entry of an animal's `icons` list: the union of the fields the system
and custom constructors read, numeric fields already int-parsed. -/
structure RawIcon where
  type : String
  id : Int
  status : String
  color : String
  secondary_color : Option String
  title : String
  fontawesome_icon_id : Int
  fa_class : String
  comment : Option String
  content : Option String
  color_label_template_id : Int
  animal_id : Int
  deriving DecidableEq, Repr

/-- The JSON payload `Icons.from_json` consumes: the template list and the
per-animal icon lists (`resp["data"]["animals"]`, keys already int-parsed). -/
structure IconsResp where
  animal_templates : List RawTemplate
  animals : List (Int × List RawIcon)
  deriving DecidableEq, Repr

/-- `Icon.from_json`. -/
def Icon.from_json (t : RawTemplate) : Icon :=
  ⟨t.id, t.fontawesome_icon_id, t.fa_class, t.title, t.color, t.capacity,
    t.group_name, none, "custom"⟩

/-- `SystemAnimalIcon.from_json`. -/
def SystemAnimalIcon.from_json (r : RawIcon) (a_id : Int) : SystemAnimalIcon :=
  ⟨r.id, a_id, bool_helper r.status, r.color, r.secondary_color, r.title,
    r.fontawesome_icon_id, r.fa_class, r.comment, r.content⟩

/-- `SystemAnimalIcon.to_template`. -/
def SystemAnimalIcon.to_template (s : SystemAnimalIcon) : Icon :=
  ⟨s.icon_id, s.fontawesome_icon_id, s.fontawesome_class, s.title, s.color,
    none, none, s.secondary_color, "system"⟩

/-- `CustomAnimalIcon.from_json`. -/
def CustomAnimalIcon.from_json (r : RawIcon) : CustomAnimalIcon :=
  ⟨r.color_label_template_id, r.animal_id, r.content, r.comment⟩

/-- Python dict assignment `d[k] = v` on an association list: replace the
binding in place or append it. -/
def dictInsert {α : Type} : List (Int × α) → Int → α → List (Int × α)
  | [], k, v => [(k, v)]
  | kv :: rest, k, v =>
    if kv.1 = k then (k, v) :: rest else kv :: dictInsert rest k v

/-- Python `k in d`. -/
def containsKey {α : Type} (l : List (Int × α)) (k : Int) : Bool :=
  l.any (fun kv => kv.1 == k)

/-- Python `d[k]` as an `Option` (`none` is a `KeyError`). -/
def dictLookup {α : Type} : List (Int × α) → Int → Option α
  | [], _ => none
  | kv :: rest, k => if kv.1 = k then some kv.2 else dictLookup rest k

/-- `Icons` dataclass: templates keyed by icon id, and per-animal icon
instances. -/
structure Icons where
  templates : List (Int × Icon)
  animal_icons : List (Int × List AnimalIcon)
  deriving DecidableEq, Repr

/-- The first loop of `Icons.from_json`: `templates[icon_t.id] = icon_t` for
each raw template. -/
def insertTemplates : List RawTemplate → List (Int × Icon) → List (Int × Icon)
  | [], ts => ts
  | t :: rest, ts =>
    insertTemplates rest (dictInsert ts (Icon.from_json t).id (Icon.from_json t))

/-- The inner loop of `Icons.from_json` over one animal's icons: system icons
missing a template are synthesised into one via `to_template` before being
appended; custom icons are appended as they are. -/
def processIcons (a_id : Int) : List RawIcon → List (Int × Icon) → List AnimalIcon →
    List (Int × Icon) × List AnimalIcon
  | [], ts, acc => (ts, acc)
  | icon :: rest, ts, acc =>
    if icon.type = "system" then
      processIcons a_id rest
        (if containsKey ts (SystemAnimalIcon.from_json icon a_id).icon_id then ts
         else
           dictInsert ts (SystemAnimalIcon.from_json icon a_id).icon_id
             (SystemAnimalIcon.from_json icon a_id).to_template)
        (acc ++ [AnimalIcon.system (SystemAnimalIcon.from_json icon a_id)])
    else
      processIcons a_id rest ts
        (acc ++ [AnimalIcon.custom (CustomAnimalIcon.from_json icon)])

/-- The outer loop of `Icons.from_json` over `resp["data"]["animals"]`. -/
def processAnimals : List (Int × List RawIcon) → List (Int × Icon) →
    List (Int × List AnimalIcon) → List (Int × Icon) × List (Int × List AnimalIcon)
  | [], ts, ai => (ts, ai)
  | (a_id, icons) :: rest, ts, ai =>
    processAnimals rest (processIcons a_id icons ts []).1
      (dictInsert ai a_id (processIcons a_id icons ts []).2)

/-- `Icons.from_json`. -/
def Icons.from_json (resp : IconsResp) : Icons :=
  ⟨(processAnimals resp.animals (insertTemplates resp.animal_templates []) []).1,
   (processAnimals resp.animals (insertTemplates resp.animal_templates []) []).2⟩

/-- `icon_id` of either kind of animal icon. -/
def AnimalIcon.icon_id : AnimalIcon → Int
  | .custom c => c.icon_id
  | .system s => s.icon_id

/-- `Icons.__iter__`: yields `(self.templates[animal_icon.icon_id], animal_icon)`
over all animals; the lookup is `none` exactly where Python raises `KeyError`. -/
def Icons.iter (I : Icons) : List (Option Icon × AnimalIcon) :=
  I.animal_icons.flatMap
    (fun p => p.2.map (fun icon => (dictLookup I.templates icon.icon_id, icon)))

/-- Helper: inserting makes the key present. -/
theorem containsKey_dictInsert_self {α : Type} (k : Int) (v : α) :
    ∀ l : List (Int × α), containsKey (dictInsert l k v) k = true := by
  intro l
  induction l with
  | nil => simp [dictInsert, containsKey]
  | cons kv rest ih =>
    by_cases h : kv.1 = k
    · simp [dictInsert, h, containsKey]
    · have ih2 := ih
      simp only [containsKey] at ih2 ⊢
      simp [dictInsert, h, ih2]

/-- Helper: inserting never removes a key. -/
theorem containsKey_dictInsert_mono {α : Type} (k k2 : Int) (v : α) :
    ∀ l : List (Int × α),
      containsKey l k = true → containsKey (dictInsert l k2 v) k = true := by
  intro l
  induction l with
  | nil => intro h; simp [containsKey] at h
  | cons kv rest ih =>
    intro h
    simp only [containsKey, List.any_cons, Bool.or_eq_true] at h
    by_cases h2 : kv.1 = k2
    · rcases h with h | h
      · have hk : (k2 == k) = true := by rw [← h2]; exact h
        simp [dictInsert, h2, containsKey, hk]
      · simp [dictInsert, h2, containsKey]
        right
        simpa [containsKey] using h
    · rcases h with h | h
      · simp [dictInsert, h2, containsKey, h]
      · have := ih (by simpa [containsKey] using h)
        simp only [dictInsert, if_neg h2, containsKey, List.any_cons, Bool.or_eq_true]
        right
        simpa [containsKey] using this

/-- Helper: a present key has a `some` lookup. -/
theorem dictLookup_isSome_of_containsKey {α : Type} (k : Int) :
    ∀ l : List (Int × α), containsKey l k = true → (dictLookup l k).isSome = true := by
  intro l
  induction l with
  | nil => intro h; simp [containsKey] at h
  | cons kv rest ih =>
    intro h
    simp only [containsKey, List.any_cons, Bool.or_eq_true] at h
    by_cases hk : kv.1 = k
    · simp [dictLookup, hk]
    · rcases h with h | h
      · exact absurd (by simpa using h) hk
      · simpa [dictLookup, hk] using ih (by simpa [containsKey] using h)

/-- Helper: membership after a dict insert comes from the new binding or the
old list. -/
theorem mem_dictInsert {α : Type} (q : Int × α) (k : Int) (v : α) :
    ∀ l : List (Int × α), q ∈ dictInsert l k v → q = (k, v) ∨ q ∈ l := by
  intro l
  induction l with
  | nil =>
    intro h
    simp only [dictInsert, List.mem_singleton] at h
    exact Or.inl h
  | cons kv rest ih =>
    intro h
    by_cases h2 : kv.1 = k
    · simp only [dictInsert, if_pos h2] at h
      rcases List.mem_cons.mp h with h | h
      · exact Or.inl h
      · exact Or.inr (List.mem_cons_of_mem _ h)
    · simp only [dictInsert, if_neg h2] at h
      rcases List.mem_cons.mp h with h | h
      · exact Or.inr (by simp [h])
      · rcases ih h with h | h
        · exact Or.inl h
        · exact Or.inr (List.mem_cons_of_mem _ h)

/-- Helper: the inner icon loop only grows the template dict, and every
system icon it appends has its `icon_id` present in the resulting dict. -/
theorem processIcons_spec (a_id : Int) :
    ∀ icons : List RawIcon, ∀ ts : List (Int × Icon), ∀ acc : List AnimalIcon,
      (∀ k, containsKey ts k = true →
        containsKey (processIcons a_id icons ts acc).1 k = true) ∧
      (∀ s, AnimalIcon.system s ∈ (processIcons a_id icons ts acc).2 →
        AnimalIcon.system s ∈ acc ∨
          containsKey (processIcons a_id icons ts acc).1 s.icon_id = true) := by
  intro icons
  induction icons with
  | nil =>
    intro ts acc
    exact ⟨fun k h => h, fun s h => Or.inl h⟩
  | cons icon rest ih =>
    intro ts acc
    by_cases hty : icon.type = "system"
    · have hred : processIcons a_id (icon :: rest) ts acc =
          processIcons a_id rest
            (if containsKey ts (SystemAnimalIcon.from_json icon a_id).icon_id then ts
             else
               dictInsert ts (SystemAnimalIcon.from_json icon a_id).icon_id
                 (SystemAnimalIcon.from_json icon a_id).to_template)
            (acc ++ [AnimalIcon.system (SystemAnimalIcon.from_json icon a_id)]) := by
        simp only [processIcons, if_pos hty]
      set s0 := SystemAnimalIcon.from_json icon a_id with hs0
      set ts2 := if containsKey ts s0.icon_id then ts
        else dictInsert ts s0.icon_id s0.to_template with hts2
      have hmono : ∀ k, containsKey ts k = true → containsKey ts2 k = true := by
        intro k h
        rw [hts2]
        cases hc : containsKey ts s0.icon_id
        · simp only [Bool.false_eq_true, if_false]
          exact containsKey_dictInsert_mono k s0.icon_id s0.to_template ts h
        · simpa using h
      have hkey : containsKey ts2 s0.icon_id = true := by
        rw [hts2]
        cases hc : containsKey ts s0.icon_id
        · simp only [Bool.false_eq_true, if_false]
          exact containsKey_dictInsert_self s0.icon_id s0.to_template ts
        · simpa using hc
      obtain ⟨ihmono, ihmem⟩ := ih ts2 (acc ++ [AnimalIcon.system s0])
      rw [hred]
      refine ⟨fun k h => ihmono k (hmono k h), fun s h => ?_⟩
      rcases ihmem s h with h | h
      · rcases List.mem_append.mp h with h | h
        · exact Or.inl h
        · have hss : AnimalIcon.system s = AnimalIcon.system s0 :=
            List.mem_singleton.mp h
          have hse : s = s0 := by injection hss
          rw [hse]
          exact Or.inr (ihmono s0.icon_id hkey)
      · exact Or.inr h
    · have hred : processIcons a_id (icon :: rest) ts acc =
          processIcons a_id rest ts
            (acc ++ [AnimalIcon.custom (CustomAnimalIcon.from_json icon)]) := by
        simp only [processIcons, if_neg hty]
      obtain ⟨ihmono, ihmem⟩ :=
        ih ts (acc ++ [AnimalIcon.custom (CustomAnimalIcon.from_json icon)])
      rw [hred]
      refine ⟨ihmono, fun s h => ?_⟩
      rcases ihmem s h with h | h
      · rcases List.mem_append.mp h with h | h
        · exact Or.inl h
        · exact absurd (List.mem_singleton.mp h) (by intro hq; exact AnimalIcon.noConfusion hq)
      · exact Or.inr h

/-- Helper: the outer animal loop keeps the invariant that every system icon
recorded for any animal has its template key present. -/
theorem processAnimals_spec :
    ∀ animals : List (Int × List RawIcon), ∀ ts : List (Int × Icon),
      ∀ ai : List (Int × List AnimalIcon),
      (∀ p, p ∈ ai → ∀ s, AnimalIcon.system s ∈ p.2 →
        containsKey ts s.icon_id = true) →
      (∀ k, containsKey ts k = true →
        containsKey (processAnimals animals ts ai).1 k = true) ∧
      (∀ p, p ∈ (processAnimals animals ts ai).2 →
        ∀ s, AnimalIcon.system s ∈ p.2 →
          containsKey (processAnimals animals ts ai).1 s.icon_id = true) := by
  intro animals
  induction animals with
  | nil =>
    intro ts ai hinv
    exact ⟨fun k h => h, fun p hp s hs => hinv p hp s hs⟩
  | cons a rest ih =>
    intro ts ai hinv
    obtain ⟨a_id, icons⟩ := a
    obtain ⟨pmono, pmem⟩ := processIcons_spec a_id icons ts []
    have hred : processAnimals ((a_id, icons) :: rest) ts ai =
        processAnimals rest (processIcons a_id icons ts []).1
          (dictInsert ai a_id (processIcons a_id icons ts []).2) := by
      simp only [processAnimals]
    have hinv2 : ∀ p, p ∈ dictInsert ai a_id (processIcons a_id icons ts []).2 →
        ∀ s, AnimalIcon.system s ∈ p.2 →
          containsKey (processIcons a_id icons ts []).1 s.icon_id = true := by
      intro p hp s hs
      rcases mem_dictInsert p a_id (processIcons a_id icons ts []).2 ai hp with h | h
      · subst h
        rcases pmem s hs with h | h
        · exact absurd h (List.not_mem_nil _)
        · exact h
      · exact pmono s.icon_id (hinv p h s hs)
    obtain ⟨rmono, rmem⟩ := ih (processIcons a_id icons ts []).1
      (dictInsert ai a_id (processIcons a_id icons ts []).2) hinv2
    rw [hred]
    exact ⟨fun k h => rmono k (pmono k h), rmem⟩

/-- A payload with no templates and a single custom icon whose template id 5
is absent: shows `from_json` gives custom icons no template guarantee. -/
def respCustomEx : IconsResp :=
  ⟨[], [(1, [⟨"custom", 0, "", "", none, "", 0, "", none, none, 5, 1⟩])]⟩

/-- Claim C10: in every `Icons.from_json` result, each `SystemAnimalIcon`
recorded under `animal_icons` has its `icon_id` present in `templates`
(missing system templates are synthesised via `to_template`), so `__iter__`
never fails a template lookup for a system icon; a custom icon gets no such
guarantee — in `respCustomEx` its template lookup is a `KeyError`. -/
theorem icons_from_json_system_invariant (resp : IconsResp) :
    (∀ p, p ∈ (Icons.from_json resp).animal_icons →
      ∀ s, AnimalIcon.system s ∈ p.2 →
        containsKey (Icons.from_json resp).templates s.icon_id = true) ∧
    (∀ e, e ∈ (Icons.from_json resp).iter →
      ∀ s, e.2 = AnimalIcon.system s → e.1.isSome = true) ∧
    (dictLookup (Icons.from_json respCustomEx).templates 5 = none ∧
      (Icons.from_json respCustomEx).animal_icons =
        [(1, [AnimalIcon.custom ⟨5, 1, none, none⟩])]) := by
  obtain ⟨-, hmem⟩ := processAnimals_spec resp.animals
    (insertTemplates resp.animal_templates []) [] (fun p hp => absurd hp (List.not_mem_nil _))
  have hsys : ∀ p, p ∈ (Icons.from_json resp).animal_icons →
      ∀ s, AnimalIcon.system s ∈ p.2 →
        containsKey (Icons.from_json resp).templates s.icon_id = true := hmem
  refine ⟨hsys, ?_, rfl, rfl⟩
  intro e he s hes
  simp only [Icons.iter, List.mem_flatMap] at he
  obtain ⟨p, hp, hep⟩ := he
  simp only [List.mem_map] at hep
  obtain ⟨icon, hicon, hei⟩ := hep
  have h1 : e.1 = dictLookup (Icons.from_json resp).templates icon.icon_id := by
    rw [← hei]
  have h2 : e.2 = icon := by rw [← hei]
  rw [h1]
  have hieq : icon = AnimalIcon.system s := by
    rw [← h2]
    exact hes
  have hsys2 : AnimalIcon.system s ∈ p.2 := by
    rw [← hieq]
    exact hicon
  have := hsys p hp s hsys2
  have hid : icon.icon_id = s.icon_id := by
    rw [hieq]
    rfl
  rw [hid]
  exact dictLookup_isSome_of_containsKey s.icon_id _ this

/-- Claim C10 witness: a payload with one system icon (id 7) and no templates;
the synthesised template is found both by `containsKey` and by the iteration
lookup. -/
theorem icons_from_json_system_invariant_witness :
    containsKey
      (Icons.from_json ⟨[], [(1, [⟨"system", 7, "1", "red", none, "t", 3, "fa",
        none, none, 0, 0⟩])]⟩).templates 7 = true ∧
    dictLookup (Icons.from_json respCustomEx).templates 5 = none := by
  constructor
  · exact (icons_from_json_system_invariant
      ⟨[], [(1, [⟨"system", 7, "1", "red", none, "t", 3, "fa", none, none, 0, 0⟩])]⟩).1
      (1, [AnimalIcon.system ⟨7, 1, true, "red", none, "t", 3, "fa", none, none⟩])
      (by simp [Icons.from_json, processAnimals, processIcons, insertTemplates,
        SystemAnimalIcon.from_json, bool_helper, dictInsert, containsKey])
      ⟨7, 1, true, "red", none, "t", 3, "fa", none, none⟩
      (by simp)
  · exact (icons_from_json_system_invariant respCustomEx).2.2.1

end Gingr
